import Mathlib

/-!
Verification of the textual event-dispatch / edit-history / option-list core.

This file gives a shallow embedding, in Lean 4, of the Python source files

  * `src/textual/document/_history.py`   (class `EditHistory`)
  * `src/textual/_dispatch_key.py`       (function `dispatch_key`)
  * `src/textual/binding.py`             (classes `Binding`, `Bindings`)
  * `src/textual/widgets/_option_list2.py` (classes `Option`, `_LineCache`,
    `OptionList`)

and proves theorems about that embedding.  Modelling conventions:

  * Python `dict`s are modelled as insertion-ordered association lists with
    the operations `dictGet` / `dictSet` / `dictDel` below, which mirror
    `d[k]`, `d[k] = v` (replace in place if the key is present, append
    otherwise) and `del d[k]`.
  * Wall-clock readings of `time.monotonic()` are modelled as rational
    numbers passed explicitly to the operations that read the clock.
  * Python exceptions are modelled with `Except`, or — for methods that
    mutate state before raising — by returning the mutated state together
    with an error flag, which matches the in-place mutation semantics of
    the source.
  * Stacks (Python lists pushed/popped at the end) are modelled as Lean
    lists with the TOP AT THE HEAD; pushing is `cons`.  The edits inside a
    single batch keep their source order (oldest first, appended at the
    end), exactly as in the Python lists.
-/

/-! ## Insertion-ordered dictionaries (model of Python `dict`) -/

/-- `d[k]` lookup: the value at the first (and, for states built with
`dictSet`, only) occurrence of the key. -/
def dictGet {α β : Type} [BEq α] : List (α × β) → α → Option β
  | [], _ => none
  | kv :: rest, k => if kv.1 == k then some kv.2 else dictGet rest k

/-- `d[k] = v`: replace in place if the key is present, append otherwise
(Python dicts preserve insertion order on overwrite). -/
def dictSet {α β : Type} [BEq α] : List (α × β) → α → β → List (α × β)
  | [], k, v => [(k, v)]
  | kv :: rest, k, v => if kv.1 == k then (k, v) :: rest else kv :: dictSet rest k v

/-- `del d[k]`: drop the entry for the key.  (Python raises `KeyError` when
the key is absent; the callers modelled in this file only delete keys that
are present, so absence is mapped to the identity.) -/
def dictDel {α β : Type} [BEq α] : List (α × β) → α → List (α × β)
  | [], _ => []
  | kv :: rest, k => if kv.1 == k then rest else kv :: dictDel rest k

theorem dictGet_dictSet_self {α β : Type} [BEq α] [LawfulBEq α]
    (d : List (α × β)) (k : α) (v : β) : dictGet (dictSet d k v) k = some v := by
  induction d with
  | nil => simp [dictGet, dictSet]
  | cons kv rest ih =>
    by_cases h : kv.1 == k
    · simp [dictGet, dictSet, h]
    · simp [dictGet, dictSet, h, ih]

theorem dictGet_dictSet_ne {α β : Type} [BEq α] [LawfulBEq α]
    (d : List (α × β)) (k k' : α) (v : β) (hne : (k == k') = false) :
    dictGet (dictSet d k v) k' = dictGet d k' := by
  induction d with
  | nil => simp [dictGet, dictSet, hne]
  | cons kv rest ih =>
    by_cases h : kv.1 == k
    · have hk : kv.1 = k := by simpa using h
      simp [dictGet, dictSet, h, hne, hk]
    · simp [dictGet, dictSet, h, ih]

/-! ## Edit history (`src/textual/document/_history.py`)

An `Edit` is external to this file (`textual.document._edit`); `record_edit`
reads just its `text` (the inserted text), and its `_edit_result`, which is
`None` until the edit has been performed and afterwards carries the
`replaced_text`.  `EditRec` models exactly that interface. -/

structure EditRec where
  /-- `edit.text`: the text inserted by the edit. -/
  text : String
  /-- `edit._edit_result`, reduced to its `replaced_text` field; `none`
  models an edit that has not been performed with `Edit.do`. -/
  _edit_result : Option String
deriving DecidableEq, Repr

/-- `HistoryException`: raised when recording an edit that has not been
performed. -/
inductive HistoryException where
  | cannotRecordUnperformedEdit
deriving DecidableEq, Repr

/-- The `EditHistory` dataclass.  Field names follow the source; the two
stacks keep their top at the head of the list. -/
structure EditHistory where
  checkpoint_timer : ℚ
  checkpoint_max_characters : ℕ
  _undo_stack : List (List EditRec)
  _redo_stack : List (List EditRec)
  _last_edit_time : ℚ
  _character_count : ℕ
  _force_end_batch : Bool
  _previously_replaced : Bool
deriving DecidableEq, Repr

/-- Dataclass construction: `EditHistory(checkpoint_timer, checkpoint_max_characters)`
with the `field(init=False, ...)` defaults; `_last_edit_time` defaults to the
current `time.monotonic()` reading, passed here explicitly. -/
def EditHistory.make (checkpoint_timer : ℚ) (checkpoint_max_characters : ℕ)
    (construction_time : ℚ) : EditHistory :=
  { checkpoint_timer := checkpoint_timer
    checkpoint_max_characters := checkpoint_max_characters
    _undo_stack := []
    _redo_stack := []
    _last_edit_time := construction_time
    _character_count := 0
    _force_end_batch := false
    _previously_replaced := false }

/-- `EditHistory._count_edit_characters`: characters replaced + inserted.
The source dereferences `edit._edit_result.replaced_text` unconditionally;
it is only called after `record_edit` has checked that `_edit_result` is
not `None`, so the `none` branch is unreachable there. -/
def count_edit_characters (edit : EditRec) : ℕ :=
  edit.text.length + (edit._edit_result.getD "").length

/-- `EditHistory.record_edit`.  `current_time` is the `time.monotonic()`
reading taken inside the call. -/
def record_edit (self : EditHistory) (edit : EditRec) (current_time : ℚ) :
    Except HistoryException EditHistory :=
  match edit._edit_result with
  | none => .error .cannotRecordUnperformedEdit
  | some replaced_text =>
    -- `is_replacement = bool(edit_result.replaced_text)`
    let is_replacement : Bool := !replaced_text.isEmpty
    let edit_characters := count_edit_characters edit
    if self._undo_stack.isEmpty
        || self._force_end_batch
        || (is_replacement != self._previously_replaced)
        || decide (current_time - self._last_edit_time > self.checkpoint_timer)
        || decide (self._character_count + edit_characters > self.checkpoint_max_characters)
        || edit.text.contains '\n' then
      -- Create a new batch (creating a "checkpoint").
      .ok { self with
        _undo_stack := [edit] :: self._undo_stack
        _character_count := edit_characters
        _last_edit_time := current_time
        _force_end_batch := false
        _previously_replaced := is_replacement
        _redo_stack := [] }
    else
      -- Update the latest batch (`undo_stack[-1].append(edit)`; the guard
      -- above makes the empty-stack arm unreachable).
      .ok { self with
        _undo_stack :=
          match self._undo_stack with
          | [] => [[edit]]
          | top :: rest => (top ++ [edit]) :: rest
        _character_count := self._character_count + edit_characters
        _last_edit_time := current_time
        _previously_replaced := is_replacement
        _redo_stack := [] }

/-- `EditHistory.pop_undo`: pop the latest batch from the undo stack onto
the redo stack and return it (`none` if the undo stack is empty). -/
def pop_undo (self : EditHistory) : Option (List EditRec) × EditHistory :=
  match self._undo_stack with
  | [] => (none, self)
  | batch :: rest =>
    (some batch, { self with _undo_stack := rest, _redo_stack := batch :: self._redo_stack })

/-- `EditHistory.pop_redo`: pop the latest batch from the redo stack onto
the undo stack, force a checkpoint for the next recorded edit, and return
the batch (`none` if the redo stack is empty). -/
def pop_redo (self : EditHistory) : Option (List EditRec) × EditHistory :=
  match self._redo_stack with
  | [] => (none, self)
  | batch :: rest =>
    (some batch,
     { self with
        _redo_stack := rest
        _undo_stack := batch :: self._undo_stack
        _force_end_batch := true })

/-- `EditHistory.force_end_batch` (the method): ensure the next recorded
edit starts a new batch. -/
def force_end_batch_method (self : EditHistory) : EditHistory :=
  { self with _force_end_batch := true }

/-- `EditHistory.reset`.  `current_time` is the `time.monotonic()` reading
taken inside the call.  Note that the source does NOT touch
`_character_count` here. -/
def reset (self : EditHistory) (current_time : ℚ) : EditHistory :=
  { self with
      _undo_stack := []
      _redo_stack := []
      _last_edit_time := current_time
      _force_end_batch := false
      _previously_replaced := false }

/-- The disjunction of the six batch-boundary conditions of the spec, as a
proposition about the pre-state: undo stack empty; force-new-batch flag
set; replacement classification differs from the previous edit's; the
checkpoint timer elapsed; the character budget exceeded; or the inserted
text contains a newline. -/
def checkpoint_condition (self : EditHistory) (edit : EditRec) (current_time : ℚ) : Prop :=
  self._undo_stack = []
  ∨ self._force_end_batch = true
  ∨ (!(edit._edit_result.getD "").isEmpty) ≠ self._previously_replaced
  ∨ current_time - self._last_edit_time > self.checkpoint_timer
  ∨ self._character_count + count_edit_characters edit > self.checkpoint_max_characters
  ∨ edit.text.contains '\n' = true

instance (self : EditHistory) (edit : EditRec) (current_time : ℚ) :
    Decidable (checkpoint_condition self edit current_time) := by
  unfold checkpoint_condition
  infer_instance

/-! ### Helper lemmas about `record_edit` -/

/-- The boolean guard inside `record_edit` decides exactly
`checkpoint_condition`. -/
theorem checkpoint_condition_iff_guard (self : EditHistory) (text r : String) (t : ℚ) :
    checkpoint_condition self ⟨text, some r⟩ t ↔
      (self._undo_stack.isEmpty
        || self._force_end_batch
        || ((!r.isEmpty) != self._previously_replaced)
        || decide (t - self._last_edit_time > self.checkpoint_timer)
        || decide (self._character_count + count_edit_characters ⟨text, some r⟩ >
              self.checkpoint_max_characters)
        || text.contains '\n') = true := by
  simp [checkpoint_condition, Bool.or_eq_true, List.isEmpty_iff, bne_iff_ne,
    decide_eq_true_iff]
  tauto

/-- Evaluation of `record_edit` when a checkpoint condition holds: a new
single-edit batch is pushed. -/
theorem record_edit_eq_of_checkpoint (self : EditHistory) (text r : String) (t : ℚ)
    (hc : checkpoint_condition self ⟨text, some r⟩ t) :
    record_edit self ⟨text, some r⟩ t =
      .ok { self with
        _undo_stack := [⟨text, some r⟩] :: self._undo_stack
        _character_count := count_edit_characters ⟨text, some r⟩
        _last_edit_time := t
        _force_end_batch := false
        _previously_replaced := !r.isEmpty
        _redo_stack := [] } := by
  rw [checkpoint_condition_iff_guard] at hc
  simp only [record_edit, hc, if_true]

/-- Evaluation of `record_edit` when no checkpoint condition holds: the
edit is appended to the open batch. -/
theorem record_edit_eq_of_not_checkpoint (self : EditHistory) (text r : String) (t : ℚ)
    (top : List EditRec) (rest : List (List EditRec))
    (hu : self._undo_stack = top :: rest)
    (hc : ¬ checkpoint_condition self ⟨text, some r⟩ t) :
    record_edit self ⟨text, some r⟩ t =
      .ok { self with
            _undo_stack := (top ++ [⟨text, some r⟩]) :: rest
            _character_count := self._character_count + count_edit_characters ⟨text, some r⟩
            _last_edit_time := t
            _previously_replaced := !r.isEmpty
            _redo_stack := [] } := by
  rw [checkpoint_condition_iff_guard, Bool.not_eq_true, hu] at hc
  simp only [record_edit, hu]
  rw [hc]
  simp

/-! ### The claim theorems about `EditHistory` -/

/-- C1: `record_edit(e)` on a performed edit `e` starts a new batch
(pushes `[e]` onto the undo stack, resets the character counter to `e`'s
character count and clears the force-new-batch flag) if and only if one of
the six checkpoint conditions holds (undo stack empty; force flag set;
replacement classification changed; checkpoint timer elapsed; character
budget exceeded; newline in the inserted text); otherwise `e` is appended
to the top batch and the character counter is incremented. -/
theorem record_edit_batch_boundary (self : EditHistory) (edit : EditRec)
    (current_time : ℚ) (replaced_text : String) (next : EditHistory)
    (hperf : edit._edit_result = some replaced_text)
    (hok : record_edit self edit current_time = .ok next) :
    ((next._undo_stack = [edit] :: self._undo_stack
        ∧ next._character_count = count_edit_characters edit
        ∧ next._force_end_batch = false)
      ↔ checkpoint_condition self edit current_time)
    ∧ (¬ checkpoint_condition self edit current_time →
        ∃ top rest, self._undo_stack = top :: rest
          ∧ next._undo_stack = (top ++ [edit]) :: rest
          ∧ next._character_count
              = self._character_count + count_edit_characters edit) := by
  obtain ⟨text, res⟩ := edit
  have hres : res = some replaced_text := hperf
  subst hres
  by_cases hc : checkpoint_condition self ⟨text, some replaced_text⟩ current_time
  · rw [record_edit_eq_of_checkpoint self text replaced_text current_time hc] at hok
    injection hok with hnext
    subst hnext
    refine ⟨⟨fun _ => hc, fun _ => ⟨rfl, rfl, rfl⟩⟩, fun hnc => absurd hc hnc⟩
  · have hu : self._undo_stack ≠ [] := by
      intro hnil
      exact hc (Or.inl hnil)
    obtain ⟨top, rest, hcons⟩ : ∃ top rest, self._undo_stack = top :: rest := by
      cases h : self._undo_stack with
      | nil => exact absurd h hu
      | cons a b => exact ⟨a, b, rfl⟩
    rw [record_edit_eq_of_not_checkpoint self text replaced_text current_time
      top rest hcons hc] at hok
    injection hok with hnext
    subst hnext
    constructor
    · constructor
      · intro hshape
        exfalso
        have h1 : (top ++ [(⟨text, some replaced_text⟩ : EditRec)]) :: rest
            = [⟨text, some replaced_text⟩] :: self._undo_stack := hshape.1
        rw [hcons] at h1
        have h2 := (List.cons.injEq _ _ _ _).mp h1
        have h3 : rest = top :: rest := h2.2
        have := congrArg List.length h3
        simp at this
      · intro h
        exact absurd h hc
    · intro _
      exact ⟨top, rest, hcons, rfl, rfl⟩

/-- Concrete history for the C1 witness: a freshly constructed
`EditHistory(checkpoint_timer=5, checkpoint_max_characters=100)`. -/
def c1_history : EditHistory := EditHistory.make 5 100 0

/-- Concrete performed edit for the C1 witness: inserts `"a"`, replaced
nothing. -/
def c1_edit : EditRec := ⟨"a", some ""⟩

/-- The state `record_edit` produces from `c1_history` and `c1_edit` at
time 1. -/
def c1_next : EditHistory :=
  { checkpoint_timer := 5
    checkpoint_max_characters := 100
    _undo_stack := [[c1_edit]]
    _redo_stack := []
    _last_edit_time := 1
    _character_count := 1
    _force_end_batch := false
    _previously_replaced := false }

/-- C1 witness: the theorem applied to a concrete recording on a fresh
history (the empty undo stack makes checkpoint condition 1 hold). -/
theorem record_edit_batch_boundary_witness :
    (c1_next._undo_stack = [c1_edit] :: c1_history._undo_stack
        ∧ c1_next._character_count = count_edit_characters c1_edit
        ∧ c1_next._force_end_batch = false)
      ↔ checkpoint_condition c1_history c1_edit 1 :=
  (record_edit_batch_boundary c1_history c1_edit 1 "" c1_next rfl (by
    show record_edit c1_history c1_edit 1 = Except.ok c1_next
    rfl)).1

/-- C4: after every successful `record_edit` call the redo stack is empty,
the last-edit time equals the clock reading of the call, and the
previous-edit-was-replacement flag equals the edit's replacement
classification (non-empty replaced text), in both the new-batch and the
append branches. -/
theorem record_edit_updates_scalars (self : EditHistory) (edit : EditRec)
    (current_time : ℚ) (next : EditHistory)
    (hok : record_edit self edit current_time = .ok next) :
    next._redo_stack = []
    ∧ next._last_edit_time = current_time
    ∧ next._previously_replaced = !(edit._edit_result.getD "").isEmpty := by
  obtain ⟨text, res⟩ := edit
  cases res with
  | none => exact absurd hok (by simp [record_edit])
  | some r =>
    by_cases hc : checkpoint_condition self ⟨text, some r⟩ current_time
    · rw [record_edit_eq_of_checkpoint self text r current_time hc] at hok
      injection hok with hnext
      subst hnext
      exact ⟨rfl, rfl, rfl⟩
    · have hu : self._undo_stack ≠ [] := fun hnil => hc (Or.inl hnil)
      obtain ⟨top, rest, hcons⟩ : ∃ top rest, self._undo_stack = top :: rest := by
        cases h : self._undo_stack with
        | nil => exact absurd h hu
        | cons a b => exact ⟨a, b, rfl⟩
      rw [record_edit_eq_of_not_checkpoint self text r current_time top rest hcons hc] at hok
      injection hok with hnext
      subst hnext
      exact ⟨rfl, rfl, rfl⟩

/-- C4 witness: the theorem applied to a concrete successful recording. -/
theorem record_edit_updates_scalars_witness :
    c1_next._redo_stack = []
    ∧ c1_next._last_edit_time = 1
    ∧ c1_next._previously_replaced = !(c1_edit._edit_result.getD "").isEmpty :=
  record_edit_updates_scalars c1_history c1_edit 1 c1_next (by
    show record_edit c1_history c1_edit 1 = Except.ok c1_next
    rfl)

/-- Helper: when the force-new-batch flag is set, a successful
`record_edit` always takes the new-batch branch. -/
theorem record_edit_of_force_flag (self : EditHistory) (edit : EditRec)
    (current_time : ℚ) (next : EditHistory)
    (hforce : self._force_end_batch = true)
    (hok : record_edit self edit current_time = .ok next) :
    next._undo_stack = [edit] :: self._undo_stack ∧ next._redo_stack = [] := by
  obtain ⟨text, res⟩ := edit
  cases res with
  | none => exact absurd hok (by simp [record_edit])
  | some r =>
    have hc : checkpoint_condition self ⟨text, some r⟩ current_time :=
      Or.inr (Or.inl hforce)
    rw [record_edit_eq_of_checkpoint self text r current_time hc] at hok
    injection hok with hnext
    subst hnext
    exact ⟨rfl, rfl⟩

/-- C5: with a non-empty redo stack, `pop_redo` pops the top batch, pushes
it onto the undo stack and returns it, and a record_edit immediately
following starts its own new batch (never extending the redone batch) and
leaves the redo stack empty again; with an empty redo stack, `pop_redo`
returns `none` and changes nothing. -/
theorem pop_redo_spec (self : EditHistory) :
    (self._redo_stack = [] → pop_redo self = (none, self))
    ∧ ∀ batch rest, self._redo_stack = batch :: rest →
        (pop_redo self).1 = some batch
        ∧ (pop_redo self).2._undo_stack = batch :: self._undo_stack
        ∧ (pop_redo self).2._redo_stack = rest
        ∧ ∀ edit t next, record_edit (pop_redo self).2 edit t = .ok next →
            next._undo_stack = [edit] :: batch :: self._undo_stack
            ∧ next._redo_stack = [] := by
  constructor
  · intro hnil
    simp [pop_redo, hnil]
  · intro batch rest hcons
    have hpop : pop_redo self =
        (some batch,
         { self with
            _redo_stack := rest
            _undo_stack := batch :: self._undo_stack
            _force_end_batch := true }) := by
      simp [pop_redo, hcons]
    rw [hpop]
    refine ⟨rfl, rfl, rfl, ?_⟩
    intro edit t next hok
    have h := record_edit_of_force_flag _ edit t next rfl hok
    exact ⟨h.1, h.2⟩

/-- The history state produced by recording `c1_edit` at time 2 right
after `pop_redo` on `c1_next` with redo stack `[[c1_edit]]`. -/
def c5_next : EditHistory :=
  { checkpoint_timer := 5
    checkpoint_max_characters := 100
    _undo_stack := [[c1_edit], [c1_edit], [c1_edit]]
    _redo_stack := []
    _last_edit_time := 2
    _character_count := 1
    _force_end_batch := false
    _previously_replaced := false }

/-- C5 witness: a concrete pop of a one-batch redo stack followed by a
record; the recorded edit starts its own batch and the redo stack is
empty again. -/
theorem pop_redo_spec_witness :
    (pop_redo { c1_next with _redo_stack := [[c1_edit]] }).1 = some [c1_edit]
    ∧ (pop_redo { c1_next with _redo_stack := [[c1_edit]] }).2._undo_stack
        = [c1_edit] :: c1_next._undo_stack
    ∧ (pop_redo { c1_next with _redo_stack := [[c1_edit]] }).2._redo_stack = []
    ∧ c5_next._undo_stack = [c1_edit] :: [c1_edit] :: c1_next._undo_stack
    ∧ c5_next._redo_stack = [] := by
  have h := (pop_redo_spec { c1_next with _redo_stack := [[c1_edit]] }).2
    [c1_edit] [] rfl
  exact ⟨h.1, h.2.1, h.2.2.1, h.2.2.2 c1_edit 2 c5_next (by
    show record_edit (pop_redo { c1_next with _redo_stack := [[c1_edit]] }).2
      c1_edit 2 = Except.ok c5_next
    rfl)⟩

/-- C9 counterexample: `reset` does not restore `_character_count` to its
constructed initial value 0.  The pre-state is reached by recording a
three-character insertion on a fresh history; after `reset` the counter is
still 3 while a freshly constructed history has counter 0. -/
theorem reset_not_initial_counterexample :
    record_edit (EditHistory.make 100 100 0) ⟨"abc", some ""⟩ 1
      = .ok { checkpoint_timer := 100
              checkpoint_max_characters := 100
              _undo_stack := [[⟨"abc", some ""⟩]]
              _redo_stack := []
              _last_edit_time := 1
              _character_count := 3
              _force_end_batch := false
              _previously_replaced := false }
    ∧ (reset { checkpoint_timer := 100
               checkpoint_max_characters := 100
               _undo_stack := [[⟨"abc", some ""⟩]]
               _redo_stack := []
               _last_edit_time := 1
               _character_count := 3
               _force_end_batch := false
               _previously_replaced := false } 2)._character_count = 3
    ∧ (EditHistory.make 100 100 2)._character_count = 0 :=
  ⟨rfl, rfl, rfl⟩

/-- C9 (amended): after `reset` both stacks are empty, the last-edit time
is the clock reading of the call, the force-new-batch and
previous-edit-was-replacement flags are cleared, and the two checkpoint
parameters are unchanged — but `_character_count` keeps its prior value
instead of returning to its initial value 0. -/
theorem reset_spec (self : EditHistory) (current_time : ℚ) :
    (reset self current_time)._undo_stack = []
    ∧ (reset self current_time)._redo_stack = []
    ∧ (reset self current_time)._last_edit_time = current_time
    ∧ (reset self current_time)._force_end_batch = false
    ∧ (reset self current_time)._previously_replaced = false
    ∧ (reset self current_time)._character_count = self._character_count
    ∧ (reset self current_time).checkpoint_timer = self.checkpoint_timer
    ∧ (reset self current_time).checkpoint_max_characters
        = self.checkpoint_max_characters := by
  simp [reset]

/-! ## Key dispatch (`src/textual/_dispatch_key.py`)

`dispatch_key(node, event)` probes the target node for methods named
`key_<alias>` / `_key_<alias>` for each alias of the key event, in
priority order.  The embedding models:

  * the node as its attribute table `getattr : String → Option String`,
    mapping a method name to the handler's identity (its `__name__`);
    `none` models an absent attribute.  Bound methods are truthy, so
    Python's `getattr(...) or getattr(...)` is `Option` alternation;
  * `event.name` as `key_name` (the empty string models a falsy name) and
    `event.name_aliases` as the ordered list `name_aliases`;
  * `screen.is_active` as the boolean `screen_is_active` (read once; the
    cooperative model has no interleaved mutation);
  * the await of `invoke(key_method, event)` by `ret : String → Bool`,
    where `ret m` is the truth of `result is not False` for handler `m`;
    the second component of the result is the list of handlers actually
    invoked, in order.
-/

/-- A DOM node as seen by `dispatch_key`: its attribute table. -/
structure KeyNode where
  getattr : String → Option String

/-- `get_key_handler`: look for the public and then the private handler
method by name. -/
def get_key_handler (node : KeyNode) (key : String) : Option String :=
  match node.getattr ("key_" ++ key) with
  | some key_method => some key_method
  | none => node.getattr ("_key_" ++ key)

/-- The outcome of `dispatch_key`: a normal boolean return, or the
`DuplicateKeyHandlers` error carrying the two handler names. -/
inductive DispatchOutcome where
  | returned (handled : Bool)
  | duplicateKeyHandlers (first_handler second_handler : String)
deriving DecidableEq, Repr

/-- The `for key_method_name in event.name_aliases` loop of
`dispatch_key`, with the loop state (`handled`, `invoked_method`) and the
list of handlers invoked so far made explicit. -/
def dispatch_key_loop (node : KeyNode) (screen_is_active : Bool) (ret : String → Bool) :
    List String → Bool → Option String → List String → DispatchOutcome × List String
  | [], handled, _, invoked_trace => (.returned handled, invoked_trace)
  | key_method_name :: aliases, handled, invoked_method, invoked_trace =>
    match get_key_handler node key_method_name with
    | none =>
      dispatch_key_loop node screen_is_active ret aliases handled invoked_method
        invoked_trace
    | some key_method =>
      match invoked_method with
      | some prev => (.duplicateKeyHandlers prev key_method, invoked_trace)
      | none =>
        if screen_is_active then
          dispatch_key_loop node screen_is_active ret aliases (ret key_method)
            (some key_method) (invoked_trace ++ [key_method])
        else
          (.returned handled, invoked_trace)

/-- `dispatch_key`: returns `False` immediately when the event has no key
name, otherwise runs the alias loop starting with `handled = False` and no
invoked method. -/
def dispatch_key (node : KeyNode) (key_name : String) (name_aliases : List String)
    (screen_is_active : Bool) (ret : String → Bool) : DispatchOutcome × List String :=
  if key_name.isEmpty then (.returned false, [])
  else dispatch_key_loop node screen_is_active ret name_aliases false none []

/-- Once a handler has been invoked, the loop raises on the next alias
that resolves (active screen). -/
theorem dispatch_key_loop_after_invoke (node : KeyNode) (ret : String → Bool)
    (aliases : List String) (handled : Bool) (prev : String)
    (invoked_trace : List String) :
    dispatch_key_loop node true ret aliases handled (some prev) invoked_trace =
      match aliases.filterMap (get_key_handler node) with
      | [] => (.returned handled, invoked_trace)
      | key_method :: _ => (.duplicateKeyHandlers prev key_method, invoked_trace) := by
  induction aliases with
  | nil => rfl
  | cons a rest ih =>
    cases hga : get_key_handler node a with
    | none => simp [dispatch_key_loop, hga, ih, List.filterMap_cons_none hga]
    | some m => simp [dispatch_key_loop, hga, List.filterMap_cons_some hga]

/-- Full characterization of the loop on an active screen starting with no
invoked method: the outcome and invocation trace are determined by the
handlers the aliases resolve to, in order. -/
theorem dispatch_key_loop_fresh (node : KeyNode) (ret : String → Bool)
    (aliases : List String) (handled : Bool) (invoked_trace : List String) :
    dispatch_key_loop node true ret aliases handled none invoked_trace =
      match aliases.filterMap (get_key_handler node) with
      | [] => (.returned handled, invoked_trace)
      | [key_method] => (.returned (ret key_method), invoked_trace ++ [key_method])
      | key_method :: second :: _ =>
        (.duplicateKeyHandlers key_method second, invoked_trace ++ [key_method]) := by
  induction aliases generalizing handled invoked_trace with
  | nil => rfl
  | cons a rest ih =>
    cases hga : get_key_handler node a with
    | none => simp [dispatch_key_loop, hga, ih, List.filterMap_cons_none hga]
    | some m =>
      simp only [dispatch_key_loop, hga, if_true,
        List.filterMap_cons_some hga,
        dispatch_key_loop_after_invoke]
      cases rest.filterMap (get_key_handler node) with
      | nil => rfl
      | cons m2 tl => rfl

/-- On an inactive screen a loop that has not yet invoked a handler never
raises: it breaks at the first handler found. -/
theorem dispatch_key_loop_inactive (node : KeyNode) (ret : String → Bool)
    (aliases : List String) (handled : Bool) (invoked_trace : List String) :
    ∃ b, dispatch_key_loop node false ret aliases handled none invoked_trace
        = (.returned b, invoked_trace) := by
  induction aliases with
  | nil => exact ⟨handled, rfl⟩
  | cons a rest ih =>
    cases hga : get_key_handler node a with
    | none => simpa [dispatch_key_loop, hga] using ih
    | some m => exact ⟨handled, by simp [dispatch_key_loop, hga]⟩

/-- C2: on an active screen, when the aliases of the event (in priority
order) resolve to at least two handlers and the first two found differ,
`dispatch_key` raises `DuplicateKeyHandlers` naming the first-found
handler (the initial candidate) and the later conflicting one: scanning
does not short-circuit after the first match. -/
theorem dispatch_key_duplicate_handlers (node : KeyNode) (key_name : String)
    (name_aliases : List String) (ret : String → Bool)
    (first_handler second_handler : String) (later_found : List String)
    (hkey : key_name.isEmpty = false)
    (hfound : name_aliases.filterMap (get_key_handler node)
        = first_handler :: second_handler :: later_found)
    (_hdiff : first_handler ≠ second_handler) :
    (dispatch_key node key_name name_aliases true ret).1
      = .duplicateKeyHandlers first_handler second_handler := by
  unfold dispatch_key
  rw [hkey]
  simp only [Bool.false_eq_true, if_false, dispatch_key_loop_fresh, hfound]

/-- Concrete node for the dispatch examples: has both `key_ctrl_i` and
`key_tab` methods (and nothing else). -/
def tabNode : KeyNode :=
  ⟨fun name =>
    if name = "key_ctrl_i" then some "key_ctrl_i"
    else if name = "key_tab" then some "key_tab"
    else none⟩

/-- C2 witness: a key event named `tab` with aliases `ctrl_i, tab` on a
node defining both `key_ctrl_i` and `key_tab` raises
`DuplicateKeyHandlers key_ctrl_i key_tab`. -/
theorem dispatch_key_duplicate_handlers_witness :
    (dispatch_key tabNode "tab" ["ctrl_i", "tab"] true (fun _ => true)).1
      = .duplicateKeyHandlers "key_ctrl_i" "key_tab" :=
  dispatch_key_duplicate_handlers tabNode "tab" ["ctrl_i", "tab"] (fun _ => true)
    "key_ctrl_i" "key_tab" [] rfl rfl (by decide)

/-- C3 counterexample: in the duplicate-handler dispatch above, the
first-found handler HAS already been invoked when the error is raised (the
invocation trace is `[key_ctrl_i]`, not empty), so detection does not
precede every handler invocation. -/
theorem dispatch_key_duplicate_invoked_counterexample :
    (dispatch_key tabNode "tab" ["ctrl_i", "tab"] true (fun _ => true)).1
      = .duplicateKeyHandlers "key_ctrl_i" "key_tab"
    ∧ (dispatch_key tabNode "tab" ["ctrl_i", "tab"] true (fun _ => true)).2
      = ["key_ctrl_i"] :=
  ⟨rfl, rfl⟩

/-- C3 (amended): whenever `dispatch_key` raises `DuplicateKeyHandlers`,
exactly the first-found handler has been invoked — the invocation trace is
`[first_handler]` — and the conflicting second handler has not been
invoked: duplicate detection happens after the first invocation but
before the second. -/
theorem dispatch_key_duplicate_trace (node : KeyNode) (key_name : String)
    (name_aliases : List String) (screen_is_active : Bool) (ret : String → Bool)
    (first_handler second_handler : String)
    (herr : (dispatch_key node key_name name_aliases screen_is_active ret).1
      = .duplicateKeyHandlers first_handler second_handler) :
    (dispatch_key node key_name name_aliases screen_is_active ret).2
      = [first_handler] := by
  unfold dispatch_key at herr ⊢
  by_cases hkey : key_name.isEmpty
  · rw [if_pos hkey] at herr
    exact absurd herr (by simp)
  · rw [if_neg hkey] at herr ⊢
    cases screen_is_active with
    | false =>
      obtain ⟨b, hb⟩ := dispatch_key_loop_inactive node ret name_aliases false []
      rw [hb] at herr
      exact absurd herr (by simp)
    | true =>
      rw [dispatch_key_loop_fresh] at herr ⊢
      cases hf : name_aliases.filterMap (get_key_handler node) with
      | nil =>
        rw [hf] at herr
        exact absurd herr (by simp)
      | cons m tl =>
        cases tl with
        | nil =>
          rw [hf] at herr
          exact absurd herr (by simp)
        | cons m2 tl2 =>
          rw [hf] at herr
          have herr2 : DispatchOutcome.duplicateKeyHandlers m m2
              = DispatchOutcome.duplicateKeyHandlers first_handler second_handler :=
            herr
          injection herr2 with e1 e2
          subst e1
          rfl

/-- C3 amended-theorem witness: in the concrete duplicate dispatch the
trace is exactly the first handler. -/
theorem dispatch_key_duplicate_trace_witness :
    (dispatch_key tabNode "tab" ["ctrl_i", "tab"] true (fun _ => true)).2
      = ["key_ctrl_i"] :=
  dispatch_key_duplicate_trace tabNode "tab" ["ctrl_i", "tab"] true (fun _ => true)
    "key_ctrl_i" "key_tab" rfl

/-! ## Option list (`src/textual/widgets/_option_list2.py`)

The embedding covers the option storage, the id/index dictionaries, the
`_LineCache`, and the mutation methods `add_options` / `remove_option` /
`_update_lines` that the claims are about.  Modelling conventions:

  * Python object identity of an `Option` instance is modelled by an
    explicit `tag : ℕ`; the `_option_to_index` dict (keyed by the object
    in Python) and the render-cache keys are keyed by the tag.
  * The `prompt` is kept as a string; the lazily-memoized `_visual` and
    the renderer are external collaborators, so an option carries
    `visual_height`, the value `get_visual(option).get_height(styles, width)`
    returns at the current content width.
  * The `LRUCache` of rendered strips holds external `Strip` values; the
    model keeps its key set `(option tag, style)`, which is all the
    invalidation claims are about.
  * `Option(prompt)` construction (the raw-prompt branch of
    `add_options`) is `mkOption prompt tag height` with a caller-chosen
    fresh tag, matching the fresh identity of the new Python object.
-/

/-- The `Option` class of the option list (named `Opt` here because `Option`
is Lean's built-in optional type).  Field names follow the source. -/
structure Opt where
  /-- Object identity of this `Option` instance. -/
  tag : ℕ
  _prompt : String
  _id : Option String
  _disabled : Bool
  _divider : Bool
  /-- `get_visual(option).get_height(styles, width)` at the current width:
  the external renderer's row count for the prompt. -/
  visual_height : ℕ
deriving DecidableEq, Repr

/-- `Option(prompt, id=None, disabled=False)` with defaults; `tag` is the
fresh identity of the created object. -/
def mkOption (prompt : String) (tag : ℕ) (visual_height : ℕ) : Opt :=
  { tag := tag
    _prompt := prompt
    _id := none
    _disabled := false
    _divider := false
    visual_height := visual_height }

/-- The `_LineCache` dataclass: one `(option index, line offset)` pair per
virtual row, plus the per-option row counts and first-row offsets. -/
structure LineCache where
  lines : List (ℕ × ℕ)
  heights : List (ℕ × ℕ)
  index_to_line : List (ℕ × ℕ)
deriving DecidableEq, Repr

/-- The option-related state of an `OptionList` widget. -/
structure OptionListState where
  _options : List Opt
  /-- `_id_to_option : dict[str, Option]`, with the option given by its tag. -/
  _id_to_option : List (String × ℕ)
  /-- `_option_to_index : dict[Option, int]`, keyed by object identity. -/
  _option_to_index : List (ℕ × ℕ)
  _line_cache : LineCache
  /-- The key set of `_option_render_cache : LRUCache[tuple[Option, Style], list[Strip]]`
  (the cached strips themselves are external). -/
  _option_render_cache_keys : List (ℕ × String)
deriving DecidableEq, Repr

/-- `OptionList.__init__` before `add_options(content)` runs: empty
storage and empty caches. -/
def OptionListState.init : OptionListState :=
  { _options := []
    _id_to_option := []
    _option_to_index := []
    _line_cache := { lines := [], heights := [], index_to_line := [] }
    _option_render_cache_keys := [] }

/-- `options[-1]._divider = True`: mark the last option (in place) as
followed by a divider. -/
def mark_last_divider : List Opt → List Opt
  | [] => []
  | [option] => [{ option with _divider := true }]
  | option :: rest => option :: mark_last_divider rest

/-- The `for prompt in new_options` loop of `OptionList.add_options`.
Input items are `none` for a `None` placeholder and `some option` for an
`Option` (a raw prompt has already been wrapped by `mkOption`).  The
boolean result records whether `DuplicateID` was raised; mutations made
before the raise persist, as they do on the Python object. -/
def add_options (self : OptionListState) : List (Option Opt) → OptionListState × Bool
  | [] => (self, false)
  | none :: rest =>
    if self._options.isEmpty then
      add_options self rest
    else
      add_options { self with _options := mark_last_divider self._options } rest
  | some option :: rest =>
    let self' : OptionListState :=
      { self with
        _option_to_index := dictSet self._option_to_index option.tag self._options.length
        _options := self._options ++ [option] }
    match option._id with
    | none => add_options self' rest
    | some oid =>
      if (dictGet self'._id_to_option oid).isSome then
        (self', true)
      else
        add_options
          { self' with _id_to_option := dictSet self'._id_to_option oid option.tag }
          rest

/-- `OptionDoesNotExist`, raised on lookups of unknown ids/indices. -/
inductive OptionListError where
  | optionDoesNotExist
deriving DecidableEq, Repr

/-- The decrement loop of `remove_option`: for every option positioned
after the removed one, `_option_to_index[option] -= 1`.  (A missing key
would be a `KeyError` in Python; it cannot occur for the consistent states
built by `add_options`, and is mapped to the identity.) -/
def dec_index_loop (option_to_index : List (ℕ × ℕ)) : List Opt → List (ℕ × ℕ)
  | [] => option_to_index
  | option :: rest =>
    dec_index_loop
      (match dictGet option_to_index option.tag with
       | some current_index => dictSet option_to_index option.tag (current_index - 1)
       | none => option_to_index)
      rest

/-- `OptionList.remove_option(option_id)`: resolve the id to an index,
decrement the stored index of every later option, and delete the option
from the three containers.  The line cache and the render cache are NOT
touched by the source (it only calls `self.refresh()`, a repaint
request). -/
def remove_option (self : OptionListState) (option_id : String) :
    Except OptionListError OptionListState :=
  match dictGet self._id_to_option option_id with
  | none => .error .optionDoesNotExist
  | some tag =>
    match dictGet self._option_to_index tag with
    | none => .error .optionDoesNotExist
    | some index =>
      let new_option_to_index :=
        dec_index_loop self._option_to_index (self._options.drop (index + 1))
      match self._options.get? index with
      | none => .error .optionDoesNotExist
      | some option =>
        .ok { self with
          _options := self._options.eraseIdx index
          _id_to_option := dictDel self._id_to_option option_id
          _option_to_index := dictDel new_option_to_index option.tag }

/-- `line_count = get_visual(option).get_height(styles, width) + option._divider`
(Python booleans count as 0/1 in arithmetic). -/
def line_count_of (option : Opt) : ℕ :=
  option.visual_height + (if option._divider then 1 else 0)

/-- The `for index, option in enumerate(self.options[last_index:], last_index)`
body of `_update_lines`: record the first-row offset and row count of the
option, then extend `lines` with one `(index, line_no)` pair per row. -/
def extend_lines_loop (cache : LineCache) : List (ℕ × Opt) → LineCache
  | [] => cache
  | (index, option) :: rest =>
    extend_lines_loop
      { index_to_line := dictSet cache.index_to_line index cache.lines.length
        heights := dictSet cache.heights index (line_count_of option)
        lines := cache.lines
          ++ (List.range (line_count_of option)).map (fun line_no => (index, line_no)) }
      rest

/-- `OptionList._update_lines`: extend the line cache starting from the
option index of the cache's last row (0 when the cache is empty), when
that index is smaller than `len(self.options) - 1`. -/
def update_lines (self : OptionListState) : OptionListState :=
  let last_index : ℕ :=
    match self._line_cache.lines.getLast? with
    | some entry => entry.1
    | none => 0
  if (last_index : ℤ) < (self._options.length : ℤ) - 1 then
    { self with
      _line_cache :=
        extend_lines_loop self._line_cache
          ((self._options.drop last_index).enumFrom last_index) }
  else self

/-- The height component of the `virtual_size` set at the end of
`_update_lines`: the number of cached rows, minus one when the final
option carries a trailing divider. -/
def virtual_height (self : OptionListState) : ℤ :=
  let last_divider :=
    !self._options.isEmpty && ((self._options.getLast?.map Opt._divider).getD false)
  (self._line_cache.lines.length : ℤ) - (if last_divider then 1 else 0)

/-- The option list built by `add_options(["A", None, "B"])` on a freshly
constructed list, then materialized by `_update_lines`.  `hA` and `hB` are
the renderer heights of the two prompts; 0 and 1 are the identities of the
two `Option` objects the raw prompts are wrapped into. -/
def c6_state (hA hB : ℕ) : OptionListState × Bool :=
  let r := add_options OptionListState.init
    [some (mkOption "A" 0 hA), none, some (mkOption "B" 1 hB)]
  (update_lines r.1, r.2)

/-- C6: `add_options(["A", None, "B"])` creates exactly two options and no
error; the `None` creates no option of its own but sets the divider flag
of the previous option "A"; in the materialized line cache "A" accounts
for `hA + 1` rows (its height plus the one synthetic divider row) and "B"
for `hB` rows, and the total number of virtual rows is exactly
`rows(A) + rows(B)` — the `None` entry contributes no further row (also
in the `virtual_size` height, since "B" has no trailing divider). -/
theorem add_options_none_marks_divider (hA hB : ℕ) :
    (c6_state hA hB).2 = false
    ∧ (c6_state hA hB).1._options.length = 2
    ∧ (c6_state hA hB).1._options.map Opt._divider = [true, false]
    ∧ dictGet (c6_state hA hB).1._line_cache.heights 0 = some (hA + 1)
    ∧ dictGet (c6_state hA hB).1._line_cache.heights 1 = some hB
    ∧ (c6_state hA hB).1._line_cache.lines.length = (hA + 1) + hB
    ∧ virtual_height (c6_state hA hB).1 = ((hA + 1) + hB : ℤ) := by
  refine ⟨rfl, ?_, ?_, ?_, ?_, ?_, ?_⟩ <;>
    simp [c6_state, add_options, OptionListState.init, mkOption, mark_last_divider,
      update_lines, extend_lines_loop, line_count_of, dictSet, dictGet,
      virtual_height, List.enumFrom]

/-- Pre-state for the `remove_option` claim: two single-row options with
ids "a" and "b", line cache materialized by `_update_lines`, and two
rendered strips present in the render cache (as produced by
`_get_option_render` during a paint; the strips themselves are external,
the cache keys are modelled). -/
def c7_pre : OptionListState :=
  { update_lines (add_options OptionListState.init
      [some { tag := 0, _prompt := "A", _id := some "a", _disabled := false,
              _divider := false, visual_height := 1 },
       some { tag := 1, _prompt := "B", _id := some "b", _disabled := false,
              _divider := false, visual_height := 1 }]).1 with
    _option_render_cache_keys :=
      [(0, "option-list--option"), (1, "option-list--option")] }

/-- The state `remove_option("a")` actually produces from `c7_pre`. -/
def c7_post : OptionListState :=
  { _options := [{ tag := 1, _prompt := "B", _id := some "b", _disabled := false,
                   _divider := false, visual_height := 1 }]
    _id_to_option := [("b", 1)]
    _option_to_index := [(1, 0)]
    _line_cache := { lines := [(0, 0), (1, 0)]
                     heights := [(0, 1), (1, 1)]
                     index_to_line := [(0, 0), (1, 1)] }
    _option_render_cache_keys :=
      [(0, "option-list--option"), (1, "option-list--option")] }

/-- C7 at the failing input: `remove_option("a")` removes the option and
decrements the stored index of the option after it (tag 1 now maps to
index 0), but it invalidates NEITHER the line cache NOR the render cache:
both are unchanged, and the stale line cache still holds two rows, the
second referencing option index 1, although only one option remains. -/
theorem remove_option_leaves_stale_caches :
    remove_option c7_pre "a" = .ok c7_post
    ∧ c7_post._options.map Opt.tag = [1]
    ∧ dictGet c7_post._option_to_index 1 = some 0
    ∧ c7_post._line_cache = c7_pre._line_cache
    ∧ c7_post._option_render_cache_keys = c7_pre._option_render_cache_keys
    ∧ c7_post._line_cache.lines = [(0, 0), (1, 0)]
    ∧ c7_post._options.length = 1 :=
  ⟨rfl, rfl, rfl, rfl, rfl, rfl, rfl⟩

/-- Pre-state for the duplicate-id claim: a list already holding one
option with id "x". -/
def c8_pre : OptionListState :=
  (add_options OptionListState.init
    [some { tag := 0, _prompt := "first", _id := some "x", _disabled := false,
            _divider := false, visual_height := 1 }]).1

/-- The offending option added in the C8 scenario. -/
def c8_offender : Opt :=
  { tag := 1, _prompt := "second", _id := some "x", _disabled := false,
    _divider := false, visual_height := 1 }

/-- C8 at the failing input: adding a second option with the already-used
id "x" raises `DuplicateID`, but the offending option has ALREADY been
appended to `_options` (and `_option_to_index`) before the check runs, so
after the failure the stored options contain two options with id "x" —
the uniqueness invariant is broken, although `_id_to_option` still maps
"x" to a single option. -/
theorem add_options_duplicate_id_keeps_offender :
    (add_options c8_pre [some c8_offender]).2 = true
    ∧ (add_options c8_pre [some c8_offender]).1._options.length = 2
    ∧ ((add_options c8_pre [some c8_offender]).1._options.filter
        (fun option => option._id == some "x")).length = 2
    ∧ dictGet (add_options c8_pre [some c8_offender]).1._option_to_index 1 = some 1
    ∧ ((add_options c8_pre [some c8_offender]).1._id_to_option.filter
        (fun kv => kv.1 == "x")).length = 1 :=
  ⟨rfl, rfl, rfl, rfl, rfl⟩

/-! ## Bindings (`src/textual/binding.py`)

`Binding` is the frozen dataclass of a key binding; `Bindings` wraps the
`keys : dict[str, Binding]` table.  The `show` field is written `«show»`
because `show` is a Lean keyword.  Python's string primitives are modelled
structurally over the character list of the string:

  * `key.split(",")` as `py_split_commas` (split at every comma, keeping
    empty parts);
  * `key.strip()` as `py_strip` (drop leading/trailing whitespace);
  * `key.isalnum()` as `str_isalnum` (nonempty and every character a
    letter or digit; modelled for ASCII, which is what keys use).

The suggestion lookup `_get_suggested_binding_key` lives in
`textual.keys`, outside the sources, and only affects the error-message
text, which is not modelled. -/

/-- `split(",")` over a character list: one part per comma-free run,
empty parts kept. -/
def split_commas_chars : List Char → List (List Char)
  | [] => [[]]
  | c :: rest =>
    match split_commas_chars rest with
    | [] => []
    | current :: parts =>
      if c = ',' then [] :: current :: parts else (c :: current) :: parts

/-- Python `s.split(",")`. -/
def py_split_commas (s : String) : List String :=
  (split_commas_chars s.data).map List.asString

/-- Python `s.strip()`: drop leading and trailing whitespace. -/
def py_strip (s : String) : String :=
  List.asString
    (((s.data.dropWhile Char.isWhitespace).reverse.dropWhile Char.isWhitespace).reverse)

/-- Python `s.isalnum()` (ASCII): nonempty and every character a letter or
digit. -/
def str_isalnum (s : String) : Bool :=
  !s.data.isEmpty && s.data.all Char.isAlphanum

structure Binding where
  key : String
  action : String
  description : String
  «show» : Bool
  key_display : Option String
  universal : Bool
deriving DecidableEq, Repr

/-- `BindingError`, raised by table construction on a malformed or
non-alphanumeric key. -/
inductive BindingError where
  | invalidBinding
deriving DecidableEq, Repr

/-- An entry of the iterable accepted by `Bindings.__init__`: a pre-built
`Binding` or a `(key, action, description)` triple. -/
inductive BindingType where
  | binding (b : Binding)
  | tuple3 (key action description : String)
deriving DecidableEq, Repr

/-- The `make_bindings` generator of `Bindings.__init__`: convert triples
to `Binding`s with the dataclass defaults, split each `key` field on
commas (without stripping), fail with `BindingError` on any
non-alphanumeric key, and expand multi-key specs into one `Binding` per
key sharing the action/description/flags. -/
def make_bindings : List BindingType → Except BindingError (List Binding)
  | [] => .ok []
  | bt :: rest =>
    let b : Binding :=
      match bt with
      | .binding b => b
      | .tuple3 key action description =>
        { key := key, action := action, description := description,
          «show» := true, key_display := none, universal := false }
    let binding_keys := py_split_commas b.key
    if binding_keys.all str_isalnum then
      let expanded : List Binding :=
        if binding_keys.length > 1 then
          binding_keys.map (fun key =>
            { key := key, action := b.action, description := b.description,
              «show» := b.«show», key_display := b.key_display,
              universal := b.universal })
        else [b]
      match make_bindings rest with
      | .ok bs => .ok (expanded ++ bs)
      | .error e => .error e
    else
      .error .invalidBinding

/-- The binding table: `self.keys : MutableMapping[str, Binding]`. -/
structure Bindings where
  keys : List (String × Binding)
deriving DecidableEq, Repr

/-- `Bindings.__init__`: validate/expand through `make_bindings` and build
the dict keyed by single key string; later duplicate keys silently
overwrite earlier ones. -/
def Bindings.construct (bindings : List BindingType) : Except BindingError Bindings :=
  match make_bindings bindings with
  | .error e => .error e
  | .ok bs => .ok ⟨bs.foldl (fun d b => dictSet d b.key b) []⟩

/-- `Bindings.bind`: split the key string on commas, strip each part, and
store one `Binding` per key (`self.keys[key] = Binding(...)`), with no
alphanumeric validation. -/
def Bindings.bind (self : Bindings) (keys action description : String)
    (show_flag : Bool) (key_display : Option String) (universal : Bool) : Bindings :=
  let all_keys := (py_split_commas keys).map py_strip
  ⟨all_keys.foldl
    (fun d key =>
      dictSet d key
        { key := key, action := action, description := description,
          «show» := show_flag, key_display := key_display, universal := universal })
    self.keys⟩

/-- Folding `dictSet` over a key list with a per-key value: keys in the
list end up mapped to their value, others are untouched. -/
theorem dictGet_foldl_dictSet {α β : Type} [BEq α] [LawfulBEq α] [DecidableEq α]
    (f : α → β) (ks : List α) (d : List (α × β)) (k : α) :
    dictGet (ks.foldl (fun d key => dictSet d key (f key)) d) k
      = if k ∈ ks then some (f k) else dictGet d k := by
  induction ks generalizing d with
  | nil => simp
  | cons a rest ih =>
    simp only [List.foldl_cons]
    rw [ih]
    by_cases hmem : k ∈ rest
    · simp [hmem]
    · by_cases hak : k = a
      · subst hak
        simp [hmem, dictGet_dictSet_self]
      · have hne : (a == k) = false := by
          simp [Ne.symm hak]
        simp [hmem, hak, dictGet_dictSet_ne _ _ _ _ hne]

/-- C10: `Bindings.bind` splits the key string on commas, strips each
resulting key, and stores one binding per key, overwriting any existing
binding for that key and leaving all other keys untouched — all without
the alphanumeric validation of table construction: the non-alphanumeric
key `"!"` is accepted and stored by `bind`, while constructing a table
from the same key string fails with a `BindingError`. -/
theorem bind_splits_strips_no_validation (self : Bindings)
    (keys action description : String) (show_flag : Bool)
    (key_display : Option String) (universal : Bool) :
    (∀ key, key ∈ (py_split_commas keys).map py_strip →
        dictGet (Bindings.bind self keys action description show_flag key_display
            universal).keys key
          = some { key := key, action := action, description := description,
                   «show» := show_flag, key_display := key_display,
                   universal := universal })
    ∧ (∀ key, key ∉ (py_split_commas keys).map py_strip →
        dictGet (Bindings.bind self keys action description show_flag key_display
            universal).keys key
          = dictGet self.keys key)
    ∧ str_isalnum "!" = false
    ∧ (Bindings.bind ⟨[]⟩ "!" action description show_flag key_display
          universal).keys
        = [("!", { key := "!", action := action, description := description,
                   «show» := show_flag, key_display := key_display,
                   universal := universal })]
    ∧ Bindings.construct [.tuple3 "!" action description] = .error .invalidBinding := by
  refine ⟨?_, ?_, by decide, rfl, rfl⟩
  · intro key hmem
    unfold Bindings.bind
    rw [dictGet_foldl_dictSet]
    simp [hmem]
  · intro key hmem
    unfold Bindings.bind
    rw [dictGet_foldl_dictSet]
    simp [hmem]

/-- C10 witness: binding `"ctrl+a, b"` stores the stripped key `"b"` and
the non-alphanumeric `"ctrl+a"`, while construction from the same key
string is rejected. -/
theorem bind_splits_strips_no_validation_witness :
    dictGet (Bindings.bind ⟨[]⟩ "ctrl+a, b" "act" "" true none false).keys "b"
      = some { key := "b", action := "act", description := "",
               «show» := true, key_display := none, universal := false }
    ∧ dictGet (Bindings.bind ⟨[]⟩ "ctrl+a, b" "act" "" true none false).keys "ctrl+a"
      = some { key := "ctrl+a", action := "act", description := "",
               «show» := true, key_display := none, universal := false }
    ∧ Bindings.construct [.tuple3 "ctrl+a, b" "act" ""] = .error .invalidBinding :=
  ⟨(bind_splits_strips_no_validation ⟨[]⟩ "ctrl+a, b" "act" "" true none false).1
      "b" (by decide),
   (bind_splits_strips_no_validation ⟨[]⟩ "ctrl+a, b" "act" "" true none false).1
      "ctrl+a" (by decide),
   rfl⟩
